import Mathlib

set_option maxRecDepth 100000
set_option maxHeartbeats 1600000

/-!
Verification of the arity-expansion code generator `generate.py` of the
diesel repository.  The generator holds five Jinja2 templates (a callable
interface declaration, sequential combinators for a result type, a
deferred-computation `Program` type and a concurrent `Fiber` type, and a
parallel combinator for `Program`) and renders each of them for every
arity in `range(2, 10)`, writing the interface declarations to one file
per arity and printing the combinator bodies to standard output.

The templates are embedded below as pure functions from the arity to the
rendered text, following Jinja2 semantics with default settings: tag
markers are removed, all surrounding whitespace is kept verbatim, a `for`
tag concatenates its body once per iteration, and a single trailing
newline of the template source is stripped.  The driver is embedded as
the list of file writes and the list of printed strings it produces.
-/

/-- Decimal rendering of a natural number, as Jinja2 renders an `int`
inside a template expression. -/
def natStr (n : Nat) : String := toString n

/-- Rendering of a Jinja2 tag of the form
`for i in range(n) ... body(i) ... endfor`: the bodies concatenated in
order i = 0, 1, ..., n-1. -/
def catRange (n : Nat) (body : Nat → String) : String :=
  String.join ((List.range n).map body)

/-- The fragment `T{{ i }}, ` used by every template's type-parameter
list. -/
def tComma (i : Nat) : String := "T" ++ natStr i ++ ", "

/-- Rendering of `finisher_template` of src/generate.py at arity `n`:
the generated `FinisherN` interface source text. -/
def finisher_render (n : Nat) : String :=
  "/*\n * Copyright (c) 2025, Antonio Gabriel Muñoz Conejo <me at tonivade dot es>\n * Distributed under the terms of the MIT License\n */\npackage com.github.tonivade.diesel.function;\n\npublic interface Finisher"
    ++ natStr n ++ "<" ++ catRange n tComma ++ "R> \x7b\n \n  R apply("
    ++ catRange n (fun i =>
        "T" ++ natStr i ++ " t" ++ natStr i
          ++ (if i < n - 1 then ", " else ""))
    ++ ");\n\n\x7d"

/-- Rendering of `result_template` of src/generate.py at arity `n`:
the `Result.mapN` sequential combinator source text. -/
def result_render (n : Nat) : String :=
  "\nstatic <F, " ++ catRange n tComma ++ "R> Result<F, R> map" ++ natStr n
    ++ "(\n  "
    ++ catRange n (fun i =>
        " Result<F, T" ++ natStr i ++ "> r" ++ natStr i ++ ",\n  ")
    ++ " Finisher" ++ natStr n ++ "<" ++ catRange n tComma
    ++ "R> finisher) \x7b\n  return "
    ++ catRange (n - 1) (fun i =>
        "r" ++ natStr i ++ ".flatMap(_" ++ natStr i ++ " -> \n    ")
    ++ "\n    r" ++ natStr (n - 1) ++ ".map(_" ++ natStr (n - 1)
    ++ " -> finisher.apply("
    ++ catRange n (fun i =>
        "_" ++ natStr i ++ (if i < n - 1 then ", " else ""))
    ++ "))\n    "
    ++ catRange (n - 1) (fun _ => ")")
    ++ ";\n\x7d"

/-- Rendering of `program_map_template` of src/generate.py at arity `n`:
the `Program.mapN` sequential combinator source text. -/
def program_map_render (n : Nat) : String :=
  "\nstatic <S, E, " ++ catRange n tComma ++ "R> Program<S, E, R> map"
    ++ natStr n ++ "(\n  "
    ++ catRange n (fun i =>
        " Program<S, E, T" ++ natStr i ++ "> p" ++ natStr i ++ ",\n  ")
    ++ " Finisher" ++ natStr n ++ "<" ++ catRange n tComma
    ++ "R> finisher) \x7b\n    return async((state, callback) -> \x7b\n      try \x7b\n        callback.accept(Result.map"
    ++ natStr n ++ "("
    ++ catRange n (fun i => "p" ++ natStr i ++ ".eval(state), ")
    ++ "finisher), null);\n      \x7d catch (RuntimeException e) \x7b\n        callback.accept(null, e);\n      \x7d\n    \x7d);\n\x7d"

/-- Rendering of `program_parmap_template` of src/generate.py at arity
`n`: the `Program.parMapN` parallel combinator source text. -/
def program_parmap_render (n : Nat) : String :=
  "\nstatic <S, E, " ++ catRange n tComma ++ "R> Program<S, E, R> parMap"
    ++ natStr n ++ "(\n  "
    ++ catRange n (fun i =>
        " Program<S, E, T" ++ natStr i ++ "> p" ++ natStr i ++ ",\n  ")
    ++ " Finisher" ++ natStr n ++ "<" ++ catRange n tComma
    ++ "R> finisher,\n  Executor executor) \x7b\n    return map"
    ++ natStr n ++ "(\n      "
    ++ catRange n (fun i =>
        " p" ++ natStr i ++ ".fork(executor), \n      ")
    ++ " ("
    ++ catRange n (fun i =>
        "f" ++ natStr i ++ (if i < n - 1 then ", " else ""))
    ++ ") -> Fiber.map" ++ natStr n ++ "("
    ++ catRange n (fun i => "f" ++ natStr i ++ ", ")
    ++ "finisher))\n      .flatMap(Fiber::join);\n\x7d"

/-- Rendering of `fiber_template` of src/generate.py at arity `n`:
the `Fiber.mapN` combinator source text. -/
def fiber_render (n : Nat) : String :=
  "\npublic static <E, " ++ catRange n tComma ++ "R> Fiber<E, R> map"
    ++ natStr n ++ "(\n  "
    ++ catRange n (fun i =>
        " Fiber<E, T" ++ natStr i ++ "> f" ++ natStr i ++ ",\n  ")
    ++ " Finisher" ++ natStr n ++ "<" ++ catRange n tComma
    ++ "R> finisher) \x7b\n  var result = "
    ++ catRange (n - 1) (fun i =>
        "f" ++ natStr i ++ ".future.thenComposeAsync(_" ++ natStr i
          ++ " -> \n    ")
    ++ "\n    f" ++ natStr (n - 1) ++ ".future.thenApplyAsync(_"
    ++ natStr (n - 1) ++ " -> Result.map" ++ natStr n ++ "("
    ++ catRange n (fun i => "_" ++ natStr i ++ ", ")
    ++ "finisher))\n    "
    ++ catRange (n - 1) (fun _ => ")")
    ++ ";\n  return new Fiber<>(result);\n\x7d"

/-- The arity sequence of the driver of src/generate.py: `range(2, 10)`,
i.e. the integers 2, 3, ..., 9. -/
def arities : List Nat := List.range' 2 8

/-- The output path used by the driver for the interface file of arity
`n`. -/
def finisherPath (n : Nat) : String :=
  "src/main/java/com/github/tonivade/diesel/function/Finisher"
    ++ natStr n ++ ".java"

/-- The file writes performed by the driver of src/generate.py, in
order: for each arity in `range(2, 10)`, the FinisherN interface text is
written (mode `w`, i.e. overwriting) to its per-arity path. -/
def fileWrites : List (String × String) :=
  arities.map (fun i => (finisherPath i, finisher_render i))

/-- The strings printed to standard output by the driver of
src/generate.py, in order (each `print` call contributes one entry). -/
def stdoutLines : List String :=
  [">>>> result"] ++ arities.map result_render
    ++ [">>>> program map"] ++ arities.map program_map_render
    ++ [">>>> fiber"] ++ arities.map fiber_render
    ++ [">>>> program parmap"] ++ arities.map program_parmap_render

/-- A file system, as the mapping from a path to the content stored
there, if any. -/
def FS : Type := String → Option String

/-- Writing a file in overwrite mode (`open(path, 'w')` followed by
`write`): the content at `p` is replaced, every other path is
unchanged. -/
def writeFile (p c : String) (fs : FS) : FS :=
  fun q => if q = p then some c else fs q

/-- The effect of one run of the generator on the file system: the
writes of `fileWrites` applied in order. -/
def runGenerator (fs : FS) : FS :=
  fileWrites.foldl (fun acc pc => writeFile pc.1 pc.2 acc) fs

/-- Whether the first character list is an initial segment of the
second. -/
def isPrefixList : List Char → List Char → Bool
  | [], _ => true
  | _ :: _, [] => false
  | a :: as, b :: bs => a = b && isPrefixList as bs

/-- Number of positions of the character list at which the pattern
occurs. -/
def countOcc (pat : List Char) : List Char → Nat
  | [] => 0
  | c :: rest =>
      (if isPrefixList pat (c :: rest) then 1 else 0) + countOcc pat rest

/-- Number of positions of the string `s` at which the (nonempty)
pattern `pat` occurs. -/
def occurrences (s pat : String) : Nat := countOcc pat.data s.data

/-- A nested short-circuit chain over slot-indexed containers: a prefix
of `flatMap` steps ending in one terminal `map` step whose slot carries
the finisher application to the listed argument slots. -/
inductive ChainExpr : Type
  | last (slot : Nat) (args : List Nat)
  | flatMap (slot : Nat) (rest : ChainExpr)

/-- Modelled from the spec, §4.3 Chain Builder: treat the N containers
as `c[0..N)`; start with `chain = c[N-1].map(v_{N-1} ->
finisher(v_0, ..., v_{N-1}))` and then, for i from N-2 down to 0, wrap
`chain = c[i].flatMap(v_i -> chain)`. -/
def chainBuilder (n : Nat) : ChainExpr :=
  (List.range (n - 1)).foldr ChainExpr.flatMap
    (ChainExpr.last (n - 1) (List.range n))

/-- The comma-separated lambda-argument list `_0, _1, ..., _k` of a
finisher application. -/
def underscoreArgs : List Nat → String
  | [] => ""
  | [i] => "_" ++ natStr i
  | i :: rest => "_" ++ natStr i ++ ", " ++ underscoreArgs rest

/-- Text of a chain expression in the concrete syntax the result-type
template uses for it: container `i` is `r{i}`, the extracted value of
slot `i` is `_{i}`, the finisher application is `finisher.apply(...)`,
with the line breaks of the emitted body. -/
def renderChain : ChainExpr → String
  | .last s args =>
      "\n    r" ++ natStr s ++ ".map(_" ++ natStr s
        ++ " -> finisher.apply(" ++ underscoreArgs args ++ "))\n    "
  | .flatMap s rest =>
      "r" ++ natStr s ++ ".flatMap(_" ++ natStr s ++ " -> \n    "
        ++ renderChain rest ++ ")"

/-- The signature part of the rendered `Result.mapN` combinator:
everything the result template emits before the body's `return`. -/
def resultSignature (n : Nat) : String :=
  "\nstatic <F, " ++ catRange n tComma ++ "R> Result<F, R> map" ++ natStr n
    ++ "(\n  "
    ++ catRange n (fun i =>
        " Result<F, T" ++ natStr i ++ "> r" ++ natStr i ++ ",\n  ")
    ++ " Finisher" ++ natStr n ++ "<" ++ catRange n tComma
    ++ "R> finisher) \x7b\n"

/-- Claim C1: for every arity N in 2..9 the emitted result-type
sequential-combine body is exactly the Chain Builder's nested expression
`r0.flatMap(_0 -> r1.flatMap(_1 -> ... r{N-1}.map(_{N-1} ->
finisher.apply(_0, ..., _{N-1})) ...))` — the N containers in slot
order 0..N-1, every container below slot N-1 chained with `flatMap`, the
last container chained with `map`, and the finisher applied exactly once
with the N extracted values in slot order. -/
theorem c1_result_body_is_chain (n : Nat) (h2 : 2 ≤ n) (h9 : n ≤ 9) :
    result_render n =
      resultSignature n ++ "  return " ++ renderChain (chainBuilder n)
        ++ ";\n\x7d"
    ∧ occurrences (result_render n) "finisher.apply(" = 1 := by
  interval_cases n <;> exact ⟨by decide, by decide⟩

/-- Witness for C1 at arity 2. -/
theorem c1_result_body_is_chain_witness :
    result_render 2 =
      resultSignature 2 ++ "  return " ++ renderChain (chainBuilder 2)
        ++ ";\n\x7d"
    ∧ occurrences (result_render 2) "finisher.apply(" = 1 :=
  c1_result_body_is_chain 2 (by decide) (by decide)

/-- The suffix of the character list that follows the first occurrence
of the (nonempty) pattern; empty if the pattern does not occur. -/
def afterList (pat : List Char) : List Char → List Char
  | [] => []
  | c :: rest =>
      if isPrefixList pat (c :: rest) then List.drop (pat.length - 1) rest
      else afterList pat rest

/-- The prefix of the character list that precedes the first occurrence
of the pattern; the whole list if the pattern does not occur. -/
def beforeList (pat : List Char) : List Char → List Char
  | [] => []
  | c :: rest =>
      if isPrefixList pat (c :: rest) then []
      else c :: beforeList pat rest

/-- The part of `s` after the first occurrence of `pat`. -/
def textAfter (s pat : String) : String := String.mk (afterList pat.data s.data)

/-- The part of `s` before the first occurrence of `pat`. -/
def textBefore (s pat : String) : String := String.mk (beforeList pat.data s.data)

/-- The part of `s` strictly between the first occurrence of `pre` and
the next occurrence of `post`. -/
def between (s pre post : String) : String := textBefore (textAfter s pre) post

/-- Fuel-driven split of a character list on a nonempty separator. -/
def splitAux (sep : List Char) : Nat → List Char → List (List Char)
  | _, [] => [[]]
  | 0, l => [l]
  | fuel + 1, c :: rest =>
      if isPrefixList sep (c :: rest) then
        [] :: splitAux sep fuel (List.drop (sep.length - 1) rest)
      else
        match splitAux sep fuel rest with
        | [] => [[c]]
        | g :: gs => (c :: g) :: gs

/-- Split of a string on a nonempty separator. -/
def splitText (s sep : String) : List String :=
  (splitAux sep.data s.data.length s.data).map String.mk

/-- The declared name of a generated interface: the text between
`public interface ` and the following `<`. -/
def interfaceNameOf (s : String) : String :=
  between s "public interface " "<"

/-- The generic type-parameter list of a generated interface: the text
between the `<` after the interface name and the closing `>`, split on
`, `. -/
def typeParamsOf (s : String) : List String :=
  splitText (between (textAfter s "public interface ") "<" ">") ", "

/-- The parameter list of the generated `apply` method: the text
between `R apply(` and `);`, split on `, `. -/
def applyParamsOf (s : String) : List String :=
  splitText (between s "R apply(" ");") ", "

/-- The delegation call the deferred-computation sequential combinator
of arity `n` makes: the result-type combinator of the same arity applied
to the eagerly evaluated `p{i}.eval(state)` arguments in slot order,
with the caller's finisher last. -/
def resultDelegationCall (n : Nat) : String :=
  "Result.map" ++ natStr n ++ "("
    ++ catRange n (fun i => "p" ++ natStr i ++ ".eval(state), ")
    ++ "finisher)"

/-- The signature part of the rendered `Program.parMapN` combinator:
everything the parallel template emits before the body's `return`. -/
def parMapSignature (n : Nat) : String :=
  "\nstatic <S, E, " ++ catRange n tComma ++ "R> Program<S, E, R> parMap"
    ++ natStr n ++ "(\n  "
    ++ catRange n (fun i =>
        " Program<S, E, T" ++ natStr i ++ "> p" ++ natStr i ++ ",\n  ")
    ++ " Finisher" ++ natStr n ++ "<" ++ catRange n tComma
    ++ "R> finisher,\n  Executor executor) \x7b\n"

/-- The comma-separated handle-argument list `f0, f1, ..., f{n-1}`. -/
def handleArgs (n : Nat) : String :=
  catRange n (fun i => "f" ++ natStr i ++ (if i < n - 1 then ", " else ""))

/-- The parallel-combine body as §4.5 and claim C5 describe it:
delegate to the sequential `mapN` applied to the handles
`p0.fork(executor)`, ..., `p{N-1}.fork(executor)` in slot order, with as
finisher a lambda performing the handle-level combine
`Fiber.mapN(f0, ..., f{N-1}, finisher)`, followed by
`.flatMap(Fiber::join)`; rendered with the emitted body's whitespace. -/
def parCombineSpecBody (n : Nat) : String :=
  "    return map" ++ natStr n ++ "(\n      "
    ++ catRange n (fun i =>
        " p" ++ natStr i ++ ".fork(executor), \n      ")
    ++ " (" ++ handleArgs n ++ ") -> Fiber.map" ++ natStr n ++ "("
    ++ catRange n (fun i => "f" ++ natStr i ++ ", ")
    ++ "finisher))\n      .flatMap(Fiber::join);"

/-- Failure test for an `Except` value. -/
def isFailure {ε α : Type} : Except ε α → Bool
  | .error _ => true
  | .ok _ => false

/-- Modelled from the spec: the diesel `Result` class is not under
src/; per §4.3 a `Result<F, T>` is a success or failure value whose
`flatMap` short-circuits on failure and whose `map` transforms a
success, which is exactly `Except`.  `chainEval` is the value semantics
of the Chain Builder's nested expression as the result template emits it
(`r0.flatMap(_0 -> ... r{N-1}.map(_{N-1} -> finisher.apply(...)))`),
over an arbitrary list of containers: a `flatMap` step per container
before the last, a `map` step for the last, the finisher receiving the
extracted values in slot order. -/
def chainEval {ε α β : Type} : List (Except ε α) → (List α → β) → Except ε β
  | [], f => .ok (f [])
  | [r], f => r.map (fun v => f [v])
  | r :: r2 :: rs, f =>
      r.bind (fun v => chainEval (r2 :: rs) (fun vs => f (v :: vs)))

/-- Modelled from the spec: the diesel `Program` class is not under
src/; per §2 and §4.4 a program is a deferred computation that `eval`
runs against a state, producing the result type.  To observe which
programs a combinator runs, an instrumented program also returns the
list of evaluation events it performed.  `programMapNEval` is the
evaluation semantics of the emitted `Program.mapN` body
`callback.accept(Result.mapN(p0.eval(state), ..., finisher), null)`:
Java evaluates every argument `p{i}.eval(state)` left to right before
the call, so the events of all N programs occur, and the combined value
is the result chain over the N evaluation results. -/
def programMapNEval {σ ε α β : Type}
    (ps : List (σ → List Nat × Except ε α)) (f : List α → β) (s : σ) :
    List Nat × Except ε β :=
  let evs := ps.map (fun p => p s)
  ((evs.map Prod.fst).flatten, chainEval (evs.map Prod.snd) f)

/-- An instrumented program at slot 0 that fails, logging event 0. -/
def pFail : Unit → List Nat × Except String Nat :=
  fun _ => ([0], .error "boom")

/-- An instrumented program at slot 1 that succeeds, logging event 1. -/
def pSucc : Unit → List Nat × Except String Nat :=
  fun _ => ([1], .ok 7)

/-- The evaluation-order property claim C2 asserts for the
deferred-computation abstraction, as a decidable check on instrumented
programs whose slot-`i` evaluation logs event `i`: whenever the input at
position `k` produces a failure, no input at a position greater than `k`
is evaluated, i.e. the combined evaluation log holds no event past `k`. -/
def noEvalPastFailureB (ps : List (Unit → List Nat × Except String Nat)) : Bool :=
  let evs := ps.map (fun p => p ())
  (List.range evs.length).all (fun k =>
    match evs[k]? with
    | some ev =>
        !(isFailure ev.2)
          || (programMapNEval ps (fun vs => vs.length) ()).1.all (fun j => j ≤ k)
    | none => true)

/-- Whether a printed entry is a body of the deferred-computation
(Program) abstraction: one of its sequential `mapN` bodies or one of
its parallel `parMapN` bodies. -/
def isProgramBody (s : String) : Bool :=
  (arities.map program_map_render).contains s
    || (arities.map program_parmap_render).contains s

/-- Whether the entries of `l` satisfying `p` form one contiguous block:
after dropping the entries before the block and the block itself, no
further entry satisfies `p`. -/
def groupedB (l : List String) (p : String → Bool) : Bool :=
  (((l.map p).dropWhile (fun b => !b)).dropWhile (fun b => b)).all
    (fun b => !b)

/-- On an all-success container list the chain yields success of the
finisher applied to the extracted values in slot order. -/
theorem chainEval_all_ok {ε α β : Type} (vs : List α) (f : List α → β)
    (h : vs ≠ []) :
    chainEval (vs.map (Except.ok : α → Except ε α)) f = .ok (f vs) := by
  induction vs generalizing f with
  | nil => exact absurd rfl h
  | cons v tail ih =>
      cases tail with
      | nil => rfl
      | cons t ts =>
          have step :
              chainEval ((v :: t :: ts).map (Except.ok : α → Except ε α)) f
                = chainEval ((t :: ts).map Except.ok)
                    (fun vs => f (v :: vs)) := rfl
          rw [step, ih (fun vs => f (v :: vs)) (by simp)]

/-- The chain short-circuits at the first failing container: that
failure is the overall value, whatever containers follow and whatever
the finisher is. -/
theorem chainEval_first_error {ε α β : Type} (vs : List α) (e : ε)
    (rest : List (Except ε α)) (f : List α → β) :
    chainEval (vs.map Except.ok ++ Except.error e :: rest) f = .error e := by
  induction vs generalizing f with
  | nil => cases rest <;> rfl
  | cons v tail ih =>
      obtain ⟨x, xs, hx⟩ :
          ∃ x xs, tail.map (Except.ok : α → Except ε α)
            ++ Except.error e :: rest = x :: xs := by
        cases tail <;> exact ⟨_, _, rfl⟩
      calc chainEval ((v :: tail).map Except.ok ++ Except.error e :: rest) f
          = chainEval (Except.ok v :: x :: xs) f := by
            rw [List.map_cons, List.cons_append, hx]
        _ = chainEval (x :: xs) (fun vs => f (v :: vs)) := rfl
        _ = chainEval (tail.map Except.ok ++ Except.error e :: rest)
              (fun vs => f (v :: vs)) := by rw [hx]
        _ = .error e := ih _

/-- Applying a list of overwriting writes to a file system: the content
at `q` is that of the last write to `q` when one exists, and the
original content otherwise. -/
theorem foldl_writeFile (l : List (String × String)) (fs : FS) (q : String) :
    l.foldl (fun acc pc => writeFile pc.1 pc.2 acc) fs q =
      match l.reverse.find? (fun pc => pc.1 == q) with
      | some pc => some pc.2
      | none => fs q := by
  induction l generalizing fs with
  | nil => rfl
  | cons pc l ih =>
      simp only [List.foldl_cons, List.reverse_cons, ih, List.find?_append]
      cases h : l.reverse.find? (fun pc => pc.1 == q) with
      | some r => simp [h, Option.orElse]
      | none =>
          simp only [h, Option.orElse, List.find?_cons, List.find?_nil]
          by_cases hq : pc.1 = q
          · simp [writeFile, hq]
          · have hb : (pc.1 == q) = false := by
              simpa using hq
            simp [writeFile, hb, Ne.symm hq]

/-- Counterexample to claim C2 as stated: in the emitted
`Program.mapN`, the N arguments `p{i}.eval(state)` are all evaluated
before `Result.mapN` runs, so the input at position 1 is evaluated even
though the input at position 0 fails — its evaluation event 1 occurs in
the combined log `[0, 1]` although the overall value is the slot-0
failure. -/
theorem c2_eval_not_short_circuited :
    noEvalPastFailureB [pFail, pSucc] = false
    ∧ (programMapNEval [pFail, pSucc] (fun vs => vs.length) ()).2
        = Except.error "boom"
    ∧ (programMapNEval [pFail, pSucc] (fun vs => vs.length) ()).1 = [0, 1] :=
  ⟨by decide, by rfl, by rfl⟩

/-- Claim C2 (amended): for every arity N in 2..9 the deferred-
computation sequential combinator delegates to the result-type
combinator of the same arity, applied to the eagerly evaluated
`p0.eval(state)`, ..., `p{N-1}.eval(state)` in slot order; the combined
value follows the same first-failure-wins, finisher-once policy as the
result chain (all-success yields the finisher of the values in slot
order, a first failure is returned unchanged), but all N programs are
evaluated even when an earlier one fails, so the short-circuit policy is
identical across abstractions only at the level of the combined value,
not of input evaluation. -/
theorem c2_program_delegates_to_chain (n : Nat) (h2 : 2 ≤ n) (h9 : n ≤ 9) :
    occurrences (program_map_render n) (resultDelegationCall n) = 1
    ∧ (∀ {α β : Type} (vs : List α) (f : List α → β), vs ≠ [] →
        chainEval (vs.map (Except.ok : α → Except String α)) f = .ok (f vs))
    ∧ (∀ {α β : Type} (vs : List α) (e : String)
        (rest : List (Except String α)) (f : List α → β),
        chainEval (vs.map Except.ok ++ Except.error e :: rest) f = .error e)
    ∧ (∀ (ps : List (Unit → List Nat × Except String Nat)),
        (programMapNEval ps (fun vs => vs.length) ()).1
          = (ps.map (fun p => (p ()).1)).flatten) := by
  refine ⟨?_, ?_, ?_, ?_⟩
  · interval_cases n <;> decide
  · intro α β vs f h
    exact chainEval_all_ok vs f h
  · intro α β vs e rest f
    exact chainEval_first_error vs e rest f
  · intro ps
    simp only [programMapNEval, List.map_map]
    rfl

/-- Witness for the amended C2 at arity 2. -/
theorem c2_program_delegates_to_chain_witness :
    occurrences (program_map_render 2) (resultDelegationCall 2) = 1 :=
  (c2_program_delegates_to_chain 2 (by decide) (by decide)).1

/-- Counterexample to claim C3 as stated: the arity-2 result-type
sequential-combine body invokes the finisher but contains no catch (and
no try) boundary at all, so it does not wrap the finisher invocation in
a catch-and-convert boundary. -/
theorem c3_result_body_has_no_catch :
    occurrences (result_render 2) "catch" = 0
    ∧ occurrences (result_render 2) "try" = 0
    ∧ occurrences (result_render 2) "finisher.apply(" = 1 := by
  exact ⟨by decide, by decide, by decide⟩

/-- Claim C3 (amended): for every arity N in 2..9, only the deferred-
computation (`Program`) sequential-combine body wraps its combining
expression — the `Result.mapN` call that performs the finisher
invocation — in a try/catch boundary converting a `RuntimeException`
into the callback's error channel (`callback.accept(null, e)`); the
result-type and concurrent-handle (Fiber) bodies contain no try/catch
boundary of their own. -/
theorem c3_only_program_catches (n : Nat) (h2 : 2 ≤ n) (h9 : n ≤ 9) :
    occurrences (program_map_render n)
        ("try \x7b\n        callback.accept(Result.map" ++ natStr n ++ "(") = 1
    ∧ occurrences (program_map_render n) "\x7d catch (RuntimeException e) \x7b" = 1
    ∧ occurrences (program_map_render n) "callback.accept(null, e);" = 1
    ∧ occurrences (result_render n) "catch" = 0
    ∧ occurrences (result_render n) "try" = 0
    ∧ occurrences (fiber_render n) "catch" = 0
    ∧ occurrences (fiber_render n) "try" = 0 := by
  interval_cases n <;>
    exact ⟨by decide, by decide, by decide, by decide, by decide, by decide,
      by decide⟩

/-- Witness for the amended C3 at arity 2. -/
theorem c3_only_program_catches_witness :
    occurrences (result_render 2) "catch" = 0 
    ∧ occurrences (fiber_render 2) "catch" = 0 :=
  ⟨(c3_only_program_catches 2 (by decide) (by decide)).2.2.2.1,
    (c3_only_program_catches 2 (by decide) (by decide)).2.2.2.2.2.1⟩

/-- Claim C4: for every arity N in 2..9 the generated interface is
named `FinisherN` (N recoverable from the name alone, the name map
being injective on the range), its generic parameter list is exactly
`T0, ..., T{N-1}, R` (N input type parameters and one output type
parameter), and its single `apply` method returns `R` and accepts
exactly N positional parameters `T{i} t{i}` in slot order. -/
theorem c4_finisher_interface_shape (n : Nat) (h2 : 2 ≤ n) (h9 : n ≤ 9) :
    interfaceNameOf (finisher_render n) = "Finisher" ++ natStr n
    ∧ typeParamsOf (finisher_render n)
        = ((List.range n).map (fun i => "T" ++ natStr i)) ++ ["R"]
    ∧ (typeParamsOf (finisher_render n)).length = n + 1
    ∧ applyParamsOf (finisher_render n)
        = (List.range n).map (fun i => "T" ++ natStr i ++ " t" ++ natStr i)
    ∧ (applyParamsOf (finisher_render n)).length = n
    ∧ occurrences (finisher_render n) "R apply(" = 1
    ∧ (∀ m, 2 ≤ m → m ≤ 9 →
        interfaceNameOf (finisher_render m) = interfaceNameOf (finisher_render n)
        → m = n) := by
  interval_cases n <;>
    exact ⟨by decide, by decide, by decide, by decide, by decide, by decide,
      by
        intro m hm1 hm2
        interval_cases m <;> decide⟩

/-- Witness for C4 at arity 2. -/
theorem c4_finisher_interface_shape_witness :
    interfaceNameOf (finisher_render 2) = "Finisher" ++ natStr 2 :=
  (c4_finisher_interface_shape 2 (by decide) (by decide)).1

/-- Claim C5: for every arity N in 2..9 the emitted parallel-combine
body forks all N inputs first in slot order (`p0.fork(executor)` through
`p{N-1}.fork(executor)`), delegates to the sequential `mapN` over the N
resulting handles with a finisher performing the handle-level combine
`Fiber.mapN(f0, ..., f{N-1}, finisher)`, and ends with
`.flatMap(Fiber::join)`; it contains exactly N fork calls, exactly one
delegation to `mapN`, one `Fiber.mapN` combine and one join. -/
theorem c5_parmap_structure (n : Nat) (h2 : 2 ≤ n) (h9 : n ≤ 9) :
    program_parmap_render n
        = parMapSignature n ++ parCombineSpecBody n ++ "\n\x7d"
    ∧ occurrences (program_parmap_render n) ".fork(executor)" = n
    ∧ occurrences (program_parmap_render n)
        ("return map" ++ natStr n ++ "(") = 1
    ∧ occurrences (program_parmap_render n)
        ("Fiber.map" ++ natStr n ++ "(") = 1
    ∧ occurrences (program_parmap_render n) ".flatMap(Fiber::join);" = 1 := by
  interval_cases n <;>
    exact ⟨by decide, by decide, by decide, by decide, by decide⟩

/-- Witness for C5 at arity 2. -/
theorem c5_parmap_structure_witness :
    program_parmap_render 2
      = parMapSignature 2 ++ parCombineSpecBody 2 ++ "\n\x7d" :=
  (c5_parmap_structure 2 (by decide) (by decide)).1

/-- Mapping a renderer over an arity list preserves occurrence counts
when the renderer sends distinct arities of the list to distinct
texts. -/
theorem count_map_eq_count (l : List Nat) (f : Nat → String) (n : Nat)
    (hne : ∀ m ∈ l, m ≠ n → (f m == f n) = false) :
    (l.map f).count (f n) = l.count n := by
  induction l with
  | nil => rfl
  | cons a l ih =>
      have ihh := ih (fun m hm hmn => hne m (List.mem_cons_of_mem a hm) hmn)
      by_cases ha : a = n
      · subst ha
        simp [List.count_cons, ihh]
      · have hfa : (f a == f n) = false := hne a (List.mem_cons_self a l) ha
        simp [List.count_cons, ihh, hfa, ha]

/-- Layout of the driver's standard output: for arity n in 2..9 the
result body sits at position n - 1, the Program map body at n + 8, the
Fiber body at n + 17 and the Program parMap body at n + 26. -/
theorem stdout_layout (n : Nat) (h2 : 2 ≤ n) (h9 : n ≤ 9) :
    stdoutLines.get? (n - 1) = some (result_render n)
    ∧ stdoutLines.get? (n + 8) = some (program_map_render n)
    ∧ stdoutLines.get? (n + 17) = some (fiber_render n)
    ∧ stdoutLines.get? (n + 26) = some (program_parmap_render n) := by
  interval_cases n <;> exact ⟨rfl, rfl, rfl, rfl⟩

/-- Claim C6: every template family (interface declaration, result-type
sequential-combine, Program sequential-combine, Fiber combine, parallel-
combine) is rendered exactly once for every arity in the closed range
2..9: the driver's arity sequence contains each such arity exactly once,
has length 8 and holds nothing outside the range, and each family's
rendering at each arity appears exactly once in that family's output
block. -/
theorem c6_all_arities_rendered_once (n : Nat) (h2 : 2 ≤ n) (h9 : n ≤ 9) :
    n ∈ arities
    ∧ arities.count n = 1
    ∧ arities.length = 8
    ∧ arities.all (fun m => decide (2 ≤ m ∧ m ≤ 9)) = true
    ∧ (arities.map result_render).count (result_render n) = 1
    ∧ (arities.map program_map_render).count (program_map_render n) = 1
    ∧ (arities.map fiber_render).count (fiber_render n) = 1
    ∧ (arities.map program_parmap_render).count (program_parmap_render n) = 1
    ∧ fileWrites.map Prod.snd = arities.map finisher_render
    ∧ (arities.map finisher_render).count (finisher_render n) = 1 := by
  have hmap : fileWrites.map Prod.snd = arities.map finisher_render := by
    simp only [fileWrites, List.map_map]
    rfl
  have hcount : arities.count n = 1 := by
    interval_cases n <;> decide
  have h1 : ∀ m ∈ arities, m ≠ n →
      (result_render m == result_render n) = false := by
    interval_cases n <;> decide
  have h2r : ∀ m ∈ arities, m ≠ n →
      (program_map_render m == program_map_render n) = false := by
    interval_cases n <;> decide
  have h3 : ∀ m ∈ arities, m ≠ n →
      (fiber_render m == fiber_render n) = false := by
    interval_cases n <;> decide
  have h4 : ∀ m ∈ arities, m ≠ n →
      (program_parmap_render m == program_parmap_render n) = false := by
    interval_cases n <;> decide
  have h5 : ∀ m ∈ arities, m ≠ n →
      (finisher_render m == finisher_render n) = false := by
    interval_cases n <;> decide
  refine ⟨?_, hcount, by decide, by decide,
    (count_map_eq_count arities result_render n h1).trans hcount,
    (count_map_eq_count arities program_map_render n h2r).trans hcount,
    (count_map_eq_count arities fiber_render n h3).trans hcount,
    (count_map_eq_count arities program_parmap_render n h4).trans hcount,
    hmap,
    (count_map_eq_count arities finisher_render n h5).trans hcount⟩
  interval_cases n <;> decide

/-- Witness for C6 at arity 2. -/
theorem c6_all_arities_rendered_once_witness : (2 : Nat) ∈ arities :=
  (c6_all_arities_rendered_once 2 (by decide) (by decide)).1

/-- Claim C7: the generator is deterministic and regeneration is
idempotent: running it a second time leaves the file system exactly as
after the first run, and the content it puts at any written path is
byte-identical across runs, whatever the file system held before each
run. -/
theorem c7_regeneration_idempotent :
    (∀ fs : FS, runGenerator (runGenerator fs) = runGenerator fs)
    ∧ (∀ (fs fs2 : FS) (q : String), q ∈ fileWrites.map Prod.fst →
        runGenerator fs q = runGenerator fs2 q) := by
  constructor
  · intro fs
    funext q
    simp only [runGenerator, foldl_writeFile]
    cases h : fileWrites.reverse.find? (fun pc => pc.1 == q) <;> simp [h]
  · intro fs fs2 q hq
    simp only [runGenerator]
    rw [foldl_writeFile, foldl_writeFile]
    cases h : fileWrites.reverse.find? (fun pc => pc.1 == q) with
    | some r => rfl
    | none =>
        exfalso
        obtain ⟨pc, hpc, hfst⟩ := List.mem_map.mp hq
        exact (List.find?_eq_none.mp h pc (List.mem_reverse.mpr hpc))
          (by simp [hfst])

/-- Witness for C7: the interface file of arity 2 gets the same content
whether the run starts from an empty file system or from one holding
stale content everywhere. -/
theorem c7_regeneration_idempotent_witness :
    runGenerator (fun _ => none) (finisherPath 2)
      = runGenerator (fun _ => some "stale") (finisherPath 2) :=
  c7_regeneration_idempotent.2 (fun _ => none) (fun _ => some "stale")
    (finisherPath 2) (by decide)

set_option maxHeartbeats 12000000 in
/-- Counterexample to claim C9 as stated: the printed entries belonging
to the Program abstraction (its `mapN` and `parMapN` bodies) do not form
one contiguous group — the Fiber bodies are printed between them, e.g.
`Fiber.map2` (position 19) lies between `Program.map2` (position 10) and
`Program.parMap2` (position 28). -/
theorem c9_fiber_between_program_groups :
    groupedB stdoutLines isProgramBody = false
    ∧ stdoutLines[10]? = some (program_map_render 2)
    ∧ stdoutLines[19]? = some (fiber_render 2)
    ∧ stdoutLines[28]? = some (program_parmap_render 2)
    ∧ isProgramBody (program_map_render 2) = true
    ∧ isProgramBody (fiber_render 2) = false
    ∧ isProgramBody (program_parmap_render 2) = true :=
  ⟨by decide, by rfl, by rfl, by rfl, by decide, by decide, by decide⟩

/-- Claim C9 (amended): the combinator bodies are printed in the fixed
family order result sequential-combine, Program sequential-combine,
Fiber combine, Program parallel-combine; for every arity the Program
abstraction's sequential body precedes its parallel body, but the Fiber
group lies between those two, so one abstraction's bodies are not all
grouped contiguously. -/
theorem c9_fixed_print_order (n : Nat) (h2 : 2 ≤ n) (h9 : n ≤ 9) :
    stdoutLines.get? (n - 1) = some (result_render n)
    ∧ stdoutLines.get? (n + 8) = some (program_map_render n)
    ∧ stdoutLines.get? (n + 17) = some (fiber_render n)
    ∧ stdoutLines.get? (n + 26) = some (program_parmap_render n)
    ∧ n - 1 < n + 8 ∧ n + 8 < n + 17 ∧ n + 17 < n + 26 := by
  obtain ⟨ha, hb, hc, hd⟩ := stdout_layout n h2 h9
  exact ⟨ha, hb, hc, hd, by omega, by omega, by omega⟩

/-- Witness for the amended C9 at arity 2. -/
theorem c9_fixed_print_order_witness :
    stdoutLines.get? 10 = some (program_map_render 2)
    ∧ stdoutLines.get? 19 = some (fiber_render 2) :=
  ⟨(c9_fixed_print_order 2 (by decide) (by decide)).2.1,
    (c9_fixed_print_order 2 (by decide) (by decide)).2.2.1⟩

/-- Claim C10: the only file writes the generator performs are the
eight interface files Finisher2.java through Finisher9.java under
src/main/java/com/github/tonivade/diesel/function/ (overwriting, one
per arity): every other path is left untouched by a run, each written
path ends up holding exactly its arity's interface text, and every
sequential- and parallel-combine body goes only to standard output and
is the content of no file write. -/
theorem c10_only_finisher_files_written :
    fileWrites.map Prod.fst =
      ["src/main/java/com/github/tonivade/diesel/function/Finisher2.java",
       "src/main/java/com/github/tonivade/diesel/function/Finisher3.java",
       "src/main/java/com/github/tonivade/diesel/function/Finisher4.java",
       "src/main/java/com/github/tonivade/diesel/function/Finisher5.java",
       "src/main/java/com/github/tonivade/diesel/function/Finisher6.java",
       "src/main/java/com/github/tonivade/diesel/function/Finisher7.java",
       "src/main/java/com/github/tonivade/diesel/function/Finisher8.java",
       "src/main/java/com/github/tonivade/diesel/function/Finisher9.java"]
    ∧ (∀ (fs : FS) (q : String), q ∉ fileWrites.map Prod.fst →
        runGenerator fs q = fs q)
    ∧ (∀ (fs : FS) (n : Nat), 2 ≤ n → n ≤ 9 →
        runGenerator fs (finisherPath n) = some (finisher_render n))
    ∧ (∀ n : Nat, 2 ≤ n → n ≤ 9 →
        result_render n ∈ stdoutLines ∧ program_map_render n ∈ stdoutLines
          ∧ fiber_render n ∈ stdoutLines
          ∧ program_parmap_render n ∈ stdoutLines)
    ∧ (∀ n : Nat, 2 ≤ n → n ≤ 9 →
        result_render n ∉ fileWrites.map Prod.snd
          ∧ program_map_render n ∉ fileWrites.map Prod.snd
          ∧ fiber_render n ∉ fileWrites.map Prod.snd
          ∧ program_parmap_render n ∉ fileWrites.map Prod.snd) := by
  refine ⟨by decide, ?_, ?_, ?_, ?_⟩
  · intro fs q hq
    simp only [runGenerator]
    rw [foldl_writeFile]
    cases h : fileWrites.reverse.find? (fun pc => pc.1 == q) with
    | none => rfl
    | some r =>
        exfalso
        have hr : r ∈ fileWrites :=
          List.mem_reverse.mp (List.mem_of_find?_eq_some h)
        have hrq : r.1 = q := by simpa using List.find?_some h
        exact hq (hrq ▸ List.mem_map_of_mem Prod.fst hr)
  · intro fs n hn2 hn9
    interval_cases n <;> rfl
  · intro n hn2 hn9
    obtain ⟨ha, hb, hc, hd⟩ := stdout_layout n hn2 hn9
    exact ⟨List.get?_mem ha, List.get?_mem hb, List.get?_mem hc,
      List.get?_mem hd⟩
  · intro n hn2 hn9
    interval_cases n <;> exact ⟨by decide, by decide, by decide, by decide⟩

/-- Witness for C10: a run touches no unrelated path, here an empty
file system's `README.md`. -/
theorem c10_only_finisher_files_written_witness :
    runGenerator (fun _ => none) "README.md"
      = (fun _ => (none : Option String)) "README.md" :=
  c10_only_finisher_files_written.2.1 (fun _ => none) "README.md" (by decide)
